import Mathlib

/-!
Shallow embedding of the 25-series SPI flash driver (src/series25.rs).

Machine integers are modelled as `Nat` with explicit `% 256` (for `u8`
casts) at the points where the source performs a narrowing cast.  Fallible
indexing (which panics in the source) is modelled with `Option`.  The SPI
transport is an external collaborator and is modelled as an abstract record
of behaviour functions; the driver records a trace of the calls it issues.
-/

namespace Series25

/-- The result of decoding a JEDEC identification byte sequence.
Mirrors `struct Identification { bytes: [u8; 3], continuations: u8 }`;
the fixed-size array is represented by three byte fields. -/
structure Identification where
  b0 : Nat
  b1 : Nat
  b2 : Nat
  continuations : Nat
deriving DecidableEq, Repr

/-- The scan loop of `Identification::from_jedec_id`: index of the first
byte different from the continuation marker `0x7F`, if any.  Mirrors
`for (i, item) in ... { if *item != 0x7F { start_idx = i; break } }`
applied to the already-truncated iterator. -/
def findStart : List Nat → Option Nat
  | [] => none
  | b :: rest => if b ≠ 0x7F then some 0 else (findStart rest).map (· + 1)

/-- The value of `start_idx` after the scan loop in `from_jedec_id`:
the loop runs over `buf.iter().enumerate().take(buf.len() - 2)` and
`start_idx` keeps its initial value `0` when no non-marker byte is found.
The `buf.length - 2` is `Nat` truncated subtraction. -/
def scanStart (buf : List Nat) : Nat :=
  (findStart (buf.take (buf.length - 2))).getD 0

/-- Embedding of `Identification::from_jedec_id`.  The three reads
`buf[start_idx]`, `buf[start_idx + 1]`, `buf[start_idx + 2]` panic in Rust
when out of bounds; that is modelled by returning `none`.  The cast
`start_idx as u8` is modelled by `% 256`. -/
def Identification.from_jedec_id (buf : List Nat) : Option Identification :=
  let start_idx := scanStart buf
  match buf[start_idx]?, buf[start_idx + 1]?, buf[start_idx + 2]? with
  | some x0, some x1, some x2 => some ⟨x0, x1, x2, start_idx % 256⟩
  | _, _, _ => none

/-- Embedding of `Identification::mfr_code`. -/
def Identification.mfr_code (i : Identification) : Nat := i.b0

/-- Embedding of `Identification::device_id` (the trailing two bytes). -/
def Identification.device_id (i : Identification) : List Nat := [i.b1, i.b2]

/-- Embedding of `Identification::continuation_count`. -/
def Identification.continuation_count (i : Identification) : Nat := i.continuations

/-- The status register bit-flags type (`bitflags! struct Status: u8`). -/
structure Status where
  bits : Nat
deriving DecidableEq, Repr

/-- Erase or write in progress (`1 << 0`). -/
def Status.BUSY : Status := ⟨1 <<< 0⟩

/-- Write enable latch (`1 << 1`). -/
def Status.WEL : Status := ⟨1 <<< 1⟩

/-- The 3 protection region bits (`0b00011100`). -/
def Status.PROT : Status := ⟨0b00011100⟩

/-- Status register write disable bit (`1 << 7`). -/
def Status.SRWD : Status := ⟨1 <<< 7⟩

/-- The union of all defined flag bits (`Status::all()` in bitflags). -/
def Status.allDefined : Nat :=
  Status.BUSY.bits ||| Status.WEL.bits ||| Status.PROT.bits ||| Status.SRWD.bits

/-- Embedding of bitflags `Status::from_bits_truncate`: keep defined bits,
silently drop the rest. -/
def Status.from_bits_truncate (b : Nat) : Status := ⟨b &&& Status.allDefined⟩

/-- Embedding of bitflags `Status::contains`. -/
def Status.contains (s flag : Status) : Bool := s.bits &&& flag.bits == flag.bits

/-- Modelled from the spec: the crate-level `Error` type (`crate::Error`) is
not under src/; per the spec there is exactly one recoverable error kind,
a transport failure surfacing the SPI collaborator's error verbatim
(`Error::Spi(e)`). -/
inductive Error (E : Type) where
  | Spi (e : E)
deriving DecidableEq, Repr

/-- One phase of an SPI transaction (`embedded_hal::spi::Operation`);
a read phase is represented by the length of the destination buffer. -/
inductive SpiOp where
  | write (data : List Nat)
  | read (len : Nat)
deriving DecidableEq, Repr

/-- One call the driver issues against the transport; the trace of these
calls is what the driver transmits. -/
inductive SpiCall where
  | transfer (sent : List Nat)
  | write (sent : List Nat)
  | transaction (ops : List SpiOp)
deriving DecidableEq, Repr

/-- Behaviour of an SPI device (the `SpiDevice` collaborator): a state
type `σ`, an error type `E`, and the three bus primitives the driver
uses.  `transferInPlace` returns the bytes that replace the buffer. -/
structure SpiDevice (σ E : Type) where
  transferInPlace : σ → List Nat → Except E (List Nat × σ)
  writeBytes : σ → List Nat → Except E σ
  transaction : σ → List SpiOp → Except E σ

/-- The driver value (`struct Flash { spi: SPI, params: PhantomData }`);
the geometry parameter carries no runtime data and is omitted. -/
structure Flash (σ : Type) where
  spi : σ
deriving DecidableEq, Repr

/-- Embedding of `core::task::Poll`. -/
inductive Poll (α : Type) where
  | Pending
  | Ready (value : α)
deriving DecidableEq, Repr

/-- The command buffer of `Flash::read`:
`[Opcode::Read as u8, (addr >> 16) as u8, (addr >> 8) as u8, addr as u8]`. -/
def readCmdBuf (addr : Nat) : List Nat :=
  [0x03, (addr >>> 16) % 256, (addr >>> 8) % 256, addr % 256]

/-- The command buffer of `Flash::erase_sector`. -/
def sectorEraseCmdBuf (addr : Nat) : List Nat :=
  [0x20, (addr >>> 16) % 256, (addr >>> 8) % 256, addr % 256]

/-- The command buffer of `Flash::erase_block`. -/
def blockEraseCmdBuf (addr : Nat) : List Nat :=
  [0xD8, (addr >>> 16) % 256, (addr >>> 8) % 256, addr % 256]

/-- The command header of `Flash::write_bytes` (page program). -/
def pageProgCmdBuf (addr : Nat) : List Nat :=
  [0x02, (addr >>> 16) % 256, (addr >>> 8) % 256, addr % 256]

/-- Embedding of `Flash::command_transfer`:
`self.spi.transfer_in_place(bytes).map_err(Error::Spi)`.
Returns the result, the updated driver, and the trace of the call. -/
def command_transfer {σ E : Type} (D : SpiDevice σ E) (f : Flash σ)
    (bytes : List Nat) : Except (Error E) (List Nat) × Flash σ × List SpiCall :=
  match D.transferInPlace f.spi bytes with
  | .ok (resp, s) => (.ok resp, ⟨s⟩, [.transfer bytes])
  | .error e => (.error (.Spi e), f, [.transfer bytes])

/-- Embedding of `Flash::command_write`:
`self.spi.write(bytes).map_err(Error::Spi)`. -/
def command_write {σ E : Type} (D : SpiDevice σ E) (f : Flash σ)
    (bytes : List Nat) : Except (Error E) Unit × Flash σ × List SpiCall :=
  match D.writeBytes f.spi bytes with
  | .ok s => (.ok (), ⟨s⟩, [.write bytes])
  | .error e => (.error (.Spi e), f, [.write bytes])

/-- Embedding of `Flash::read_status`: transfer `[Opcode::ReadStatus, 0]`
and build the status from the second response byte
(`Status::from_bits_truncate(buf[1])`). -/
def read_status {σ E : Type} (D : SpiDevice σ E) (f : Flash σ) :
    Except (Error E) Status × Flash σ × List SpiCall :=
  match command_transfer D f [0x05, 0] with
  | (.ok resp, f1, t) => (.ok (Status.from_bits_truncate (resp.getD 1 0)), f1, t)
  | (.error e, f1, t) => (.error e, f1, t)

/-- Embedding of `Flash::write_enable`. -/
def write_enable {σ E : Type} (D : SpiDevice σ E) (f : Flash σ) :
    Except (Error E) Unit × Flash σ × List SpiCall :=
  command_write D f [0x06]

/-- Embedding of `Flash::wait_done`
(`while self.read_status()?.contains(Status::BUSY) {}`), with explicit
fuel bounding the number of busy-poll iterations; `none` in the first
component means the loop was still spinning when the fuel ran out. -/
def wait_done {σ E : Type} (D : SpiDevice σ E) :
    Nat → Flash σ → Option (Except (Error E) Unit) × Flash σ × List SpiCall
  | 0, f => (none, f, [])
  | fuel + 1, f =>
    match read_status D f with
    | (.error e, f1, t) => (some (.error e), f1, t)
    | (.ok st, f1, t) =>
      if st.contains Status.BUSY then
        let (r, f2, t2) := wait_done D fuel f1
        (r, f2, t ++ t2)
      else
        (some (.ok ()), f1, t)

/-- Embedding of `Flash::poll_wait_done`:
`let status = self.read_status().unwrap_or(Status::BUSY);` then pending
exactly when the busy bit of that status is set. -/
def poll_wait_done {σ E : Type} (D : SpiDevice σ E) (f : Flash σ) :
    Poll Unit × Flash σ × List SpiCall :=
  let (r, f1, t) := read_status D f
  let status := match r with | .ok st => st | .error _ => Status.BUSY
  (if status.contains Status.BUSY then Poll.Pending else Poll.Ready (), f1, t)

/-- Embedding of `Flash::read`: one transaction of the command header
write followed by a read into the caller's buffer (modelled by length). -/
def Flash.read {σ E : Type} (D : SpiDevice σ E) (f : Flash σ) (addr : Nat)
    (bufLen : Nat) : Except (Error E) Unit × Flash σ × List SpiCall :=
  let ops := [SpiOp.write (readCmdBuf addr), SpiOp.read bufLen]
  match D.transaction f.spi ops with
  | .ok s => (.ok (), ⟨s⟩, [.transaction ops])
  | .error e => (.error (.Spi e), f, [.transaction ops])

/-- Embedding of `Flash::erase_sector`: write-enable, write the sector
erase command, then `wait_done`. -/
def erase_sector {σ E : Type} (D : SpiDevice σ E) (fuel : Nat) (f : Flash σ)
    (addr : Nat) : Option (Except (Error E) Unit) × Flash σ × List SpiCall :=
  match write_enable D f with
  | (.error e, f1, t) => (some (.error e), f1, t)
  | (.ok _, f1, t) =>
    match command_write D f1 (sectorEraseCmdBuf addr) with
    | (.error e, f2, t2) => (some (.error e), f2, t ++ t2)
    | (.ok _, f2, t2) =>
      let (r, f3, t3) := wait_done D fuel f2
      (r, f3, t ++ t2 ++ t3)

/-- Embedding of `Flash::erase_block`. -/
def erase_block {σ E : Type} (D : SpiDevice σ E) (fuel : Nat) (f : Flash σ)
    (addr : Nat) : Option (Except (Error E) Unit) × Flash σ × List SpiCall :=
  match write_enable D f with
  | (.error e, f1, t) => (some (.error e), f1, t)
  | (.ok _, f1, t) =>
    match command_write D f1 (blockEraseCmdBuf addr) with
    | (.error e, f2, t2) => (some (.error e), f2, t ++ t2)
    | (.ok _, f2, t2) =>
      let (r, f3, t3) := wait_done D fuel f2
      (r, f3, t ++ t2 ++ t3)

/-- Embedding of `Flash::erase_all`: write-enable, write the chip erase
opcode, then `wait_done`. -/
def erase_all {σ E : Type} (D : SpiDevice σ E) (fuel : Nat) (f : Flash σ) :
    Option (Except (Error E) Unit) × Flash σ × List SpiCall :=
  match write_enable D f with
  | (.error e, f1, t) => (some (.error e), f1, t)
  | (.ok _, f1, t) =>
    match command_write D f1 [0xC7] with
    | (.error e, f2, t2) => (some (.error e), f2, t ++ t2)
    | (.ok _, f2, t2) =>
      let (r, f3, t3) := wait_done D fuel f2
      (r, f3, t ++ t2 ++ t3)

/-- Embedding of `Flash::write_bytes`: write-enable, then one transaction
of the page-program header and the payload
`&data[..256.min(data.len())]`, then `wait_done`. -/
def write_bytes {σ E : Type} (D : SpiDevice σ E) (fuel : Nat) (f : Flash σ)
    (addr : Nat) (data : List Nat) :
    Option (Except (Error E) Unit) × Flash σ × List SpiCall :=
  match write_enable D f with
  | (.error e, f1, t) => (some (.error e), f1, t)
  | (.ok _, f1, t) =>
    let ops := [SpiOp.write (pageProgCmdBuf addr),
                SpiOp.write (data.take (min 256 data.length))]
    match D.transaction f1.spi ops with
    | .error e => (some (.error (.Spi e)), f1, t ++ [.transaction ops])
    | .ok s =>
      let (r, f3, t3) := wait_done D fuel ⟨s⟩
      (r, f3, t ++ [.transaction ops] ++ t3)

/-- A transport whose every primitive succeeds and whose reads return
zero bytes (so the status register always reads as not busy). -/
def okDev : SpiDevice Unit Unit where
  transferInPlace := fun _ b => .ok (b.map (fun _ => 0), ())
  writeBytes := fun _ _ => .ok ()
  transaction := fun _ _ => .ok ()

/-- A transport whose every primitive fails. -/
def errDev : SpiDevice Unit Unit where
  transferInPlace := fun _ _ => .error ()
  writeBytes := fun _ _ => .error ()
  transaction := fun _ _ => .error ()

/-- A transport whose write primitive succeeds on the first call and
fails afterwards (state counts the writes performed). -/
def flakyDev : SpiDevice Nat Unit where
  transferInPlace := fun _ _ => .error ()
  writeBytes := fun s _ => if s = 0 then .ok 1 else .error ()
  transaction := fun _ _ => .error ()

/-- A buffer with 256 continuation markers followed by a 3-byte identity;
its first non-marker byte sits at index 256. -/
def contBuf259 : List Nat := List.replicate 256 0x7F ++ [0xC2, 0x22, 0x08]

theorem findStart_lt_length : ∀ {l : List Nat} {i : Nat},
    findStart l = some i → i < l.length
  | [], i, h => by simp [findStart] at h
  | b :: rest, i, h => by
    by_cases hb : b = 0x7F
    · subst hb
      simp only [findStart, ne_eq, not_true_eq_false, if_false, reduceIte,
        Option.map_eq_some'] at h
      obtain ⟨j, hj, rfl⟩ := h
      have := findStart_lt_length hj
      simpa using Nat.succ_lt_succ this
    · simp [findStart, hb] at h
      simp [← h]

theorem findStart_spec : ∀ {l : List Nat} {i : Nat}, findStart l = some i →
    (∀ j, j < i → l[j]? = some 0x7F) ∧ ∃ b, l[i]? = some b ∧ b ≠ 0x7F
  | [], i, h => by simp [findStart] at h
  | b :: rest, i, h => by
    by_cases hb : b = 0x7F
    · subst hb
      simp only [findStart, ne_eq, not_true_eq_false, reduceIte,
        Option.map_eq_some'] at h
      obtain ⟨j, hj, rfl⟩ := h
      obtain ⟨ih1, x, hx, hx7⟩ := findStart_spec hj
      refine ⟨?_, x, ?_, hx7⟩
      · intro j2 hj2
        match j2 with
        | 0 => simp
        | j3 + 1 => simpa using ih1 j3 (by omega)
      · simpa using hx
    · simp only [findStart, ne_eq, hb, not_false_eq_true, reduceIte,
        Option.some.injEq] at h
      subst h
      exact ⟨fun j hj => absurd hj (by omega), b, by simp, hb⟩

theorem findStart_eq_some_of : ∀ {l : List Nat} (k : Nat) {m : Nat},
    (∀ j, j < k → l[j]? = some 0x7F) → l[k]? = some m → m ≠ 0x7F →
    findStart l = some k
  | [], k, m, _, hm, _ => by simp at hm
  | b :: rest, 0, m, _, hm, hm7 => by
    simp only [List.getElem?_cons_zero, Option.some.injEq] at hm
    subst hm
    simp [findStart, hm7]
  | b :: rest, k + 1, m, hmark, hm, hm7 => by
    have hb : b = 0x7F := by
      have := hmark 0 (by omega)
      simpa using this
    subst hb
    have ih := findStart_eq_some_of k
      (fun j hj => by simpa using hmark (j + 1) (by omega))
      (by simpa using hm) hm7
    simp [findStart, ih]

theorem findStart_eq_none : ∀ {l : List Nat}, findStart l = none →
    ∀ j, j < l.length → l[j]? = some 0x7F
  | [], _, j, hj => by simp at hj
  | b :: rest, h, j, hj => by
    by_cases hb : b = 0x7F
    · subst hb
      simp only [findStart, ne_eq, not_true_eq_false, reduceIte,
        Option.map_eq_none'] at h
      match j with
      | 0 => simp
      | j2 + 1 => simpa using findStart_eq_none h j2 (by simpa using hj)
    · simp [findStart, hb] at h

theorem from_jedec_id_of_scan {buf : List Nat} {k : Nat}
    (hscan : scanStart buf = k) (hk : k + 2 < buf.length) :
    ∃ idn, Identification.from_jedec_id buf = some idn ∧
      idn.continuations = k % 256 ∧ buf[k]? = some idn.b0 ∧
      buf[k + 1]? = some idn.b1 ∧ buf[k + 2]? = some idn.b2 := by
  rcases hx0 : buf[k]? with _ | x0
  · rw [List.getElem?_eq_none_iff] at hx0; omega
  rcases hx1 : buf[k + 1]? with _ | x1
  · rw [List.getElem?_eq_none_iff] at hx1; omega
  rcases hx2 : buf[k + 2]? with _ | x2
  · rw [List.getElem?_eq_none_iff] at hx2; omega
  refine ⟨⟨x0, x1, x2, k % 256⟩, ?_, rfl, ?_, ?_, ?_⟩
  · simp [Identification.from_jedec_id, hscan, hx0, hx1, hx2]
  · simpa using hx0
  · simpa using hx1
  · simpa using hx2

/-- C1: the claim (and the repository's own test `test_decode_jedec_id`)
says decoding `[0x81, 0x7F, 0x7F, 0x7F, 0x7F, 0x7F, 0xC2, 0x22, 0x08]`
yields manufacturer code 0xC2, continuation count 6 and device id
`[0x22, 0x08]`.  The code scans the passed buffer from index 0, so the
non-marker leading byte 0x81 stops the scan immediately: the decode
actually yields manufacturer code 0x81, continuation count 0 and device
id `[0x7F, 0x7F]`, contradicting the in-repo test. -/
theorem c1_decode_divergence :
    Identification.from_jedec_id [0x81, 0x7F, 0x7F, 0x7F, 0x7F, 0x7F, 0xC2, 0x22, 0x08]
      = some ⟨0x81, 0x7F, 0x7F, 0⟩ ∧
    (Identification.from_jedec_id
        [0x81, 0x7F, 0x7F, 0x7F, 0x7F, 0x7F, 0xC2, 0x22, 0x08]).map
      Identification.mfr_code = some 0x81 ∧
    (Identification.from_jedec_id
        [0x81, 0x7F, 0x7F, 0x7F, 0x7F, 0x7F, 0xC2, 0x22, 0x08]).map
      Identification.continuation_count = some 0 ∧
    ¬((Identification.from_jedec_id
        [0x81, 0x7F, 0x7F, 0x7F, 0x7F, 0x7F, 0xC2, 0x22, 0x08]).map
      Identification.mfr_code = some 0xC2) := by decide

set_option maxRecDepth 4000 in
/-- C2 counterexample: the claim quantifies over every buffer of length
at least 3 with exactly k leading markers.  At `[0x7F, 0x7F, 0x00]`
(k = 2, but the scan stops at `len - 2 = 1`, finds nothing, and defaults
to 0) the decode yields continuation count 0, not 2.  At a buffer with
256 leading markers (k = 256, within the scan bound) the `as u8` cast
wraps the count to 0, not 256. -/
theorem c2_counterexample :
    ((Identification.from_jedec_id [0x7F, 0x7F, 0x00]).map
        Identification.continuation_count = some 0 ∧
      ¬((Identification.from_jedec_id [0x7F, 0x7F, 0x00]).map
        Identification.continuation_count = some 2)) ∧
    ((Identification.from_jedec_id contBuf259).map
        Identification.continuation_count = some 0 ∧
      ¬((Identification.from_jedec_id contBuf259).map
        Identification.continuation_count = some 256)) := by decide

/-- C2 (amended): for every byte sequence whose first k bytes equal the
continuation marker 0x7F and whose byte at index k does not, provided
the non-marker byte appears strictly before the scan bound
(k + 2 < length) and k < 256 (the count is stored as a byte),
`from_jedec_id` returns continuation count k and the identity bytes at
positions k, k+1, k+2, with the manufacturer code the byte at k. -/
theorem c2_amended {buf : List Nat} {k m : Nat}
    (hk : k + 2 < buf.length) (h256 : k < 256)
    (hmark : ∀ j, j < k → buf[j]? = some 0x7F)
    (hm : buf[k]? = some m) (hm7 : m ≠ 0x7F) :
    ∃ idn, Identification.from_jedec_id buf = some idn ∧
      idn.continuation_count = k ∧
      idn.mfr_code = m ∧
      buf[k]? = some idn.b0 ∧
      buf[k + 1]? = some idn.b1 ∧
      buf[k + 2]? = some idn.b2 := by
  have htlen : (buf.take (buf.length - 2)).length = buf.length - 2 := by
    rw [List.length_take]
    omega
  have hscan : scanStart buf = k := by
    have hfind : findStart (buf.take (buf.length - 2)) = some k := by
      refine findStart_eq_some_of k (fun j hj => ?_) ?_ hm7
      · rw [List.getElem?_take_of_lt (by omega)]
        exact hmark j hj
      · rw [List.getElem?_take_of_lt (by omega)]
        exact hm
    simp [scanStart, hfind]
  obtain ⟨idn, h1, h2, h3, h4, h5⟩ := from_jedec_id_of_scan hscan hk
  rw [Nat.mod_eq_of_lt h256] at h2
  refine ⟨idn, h1, h2, ?_, h3, h4, h5⟩
  rw [hm] at h3
  simpa [Identification.mfr_code] using h3.symm

/-- C2 witness: the amended theorem instantiated at
`[0x7F, 0xC2, 0x22, 0x08]` with k = 1. -/
theorem c2_witness :
    ∃ idn, Identification.from_jedec_id [0x7F, 0xC2, 0x22, 0x08] = some idn ∧
      idn.continuation_count = 1 ∧
      idn.mfr_code = 0xC2 ∧
      ([0x7F, 0xC2, 0x22, 0x08] : List Nat)[1]? = some idn.b0 ∧
      ([0x7F, 0xC2, 0x22, 0x08] : List Nat)[1 + 1]? = some idn.b1 ∧
      ([0x7F, 0xC2, 0x22, 0x08] : List Nat)[1 + 2]? = some idn.b2 :=
  c2_amended (by decide) (by decide) (by decide) (by decide) (by decide)

set_option maxRecDepth 4000 in
/-- C3 counterexample: at a buffer with 256 leading continuation markers
the scan finds the first non-marker byte at index 256, but the `as u8`
cast stores continuation count 0, not the index 256 the claim asserts. -/
theorem c3_counterexample :
    scanStart contBuf259 = 256 ∧
    (Identification.from_jedec_id contBuf259).map
      Identification.continuation_count = some 0 ∧
    ¬((Identification.from_jedec_id contBuf259).map
      Identification.continuation_count = some 256) := by decide

/-- C3 (amended): for every buffer of length at least 3, the scan
inspects indices below `length - 2` for the first byte differing from
0x7F, defaulting to 0 when all scanned bytes are markers; the decode
always succeeds and the identity triple is the three bytes at the start
index; the reported continuation count is the start index reduced mod
256 (the `as u8` cast), so it equals the start index itself whenever
that index is below 256. -/
theorem c3_amended {buf : List Nat} (h3 : 3 ≤ buf.length) :
    (∃ idn, Identification.from_jedec_id buf = some idn ∧
      (scanStart buf < 256 → idn.continuation_count = scanStart buf) ∧
      idn.continuation_count = scanStart buf % 256 ∧
      buf[scanStart buf]? = some idn.b0 ∧
      buf[scanStart buf + 1]? = some idn.b1 ∧
      buf[scanStart buf + 2]? = some idn.b2) ∧
    ((scanStart buf < buf.length - 2 ∧
        (∀ j, j < scanStart buf → buf[j]? = some 0x7F) ∧
        ∃ b, buf[scanStart buf]? = some b ∧ b ≠ 0x7F) ∨
      (scanStart buf = 0 ∧
        ∀ j, j < buf.length - 2 → buf[j]? = some 0x7F)) := by
  have htlen : (buf.take (buf.length - 2)).length = buf.length - 2 := by
    rw [List.length_take]
    omega
  rcases hfind : findStart (buf.take (buf.length - 2)) with _ | i
  · have hscan : scanStart buf = 0 := by simp [scanStart, hfind]
    have hall : ∀ j, j < buf.length - 2 → buf[j]? = some 0x7F := by
      intro j hj
      have := findStart_eq_none hfind j (by omega)
      rwa [List.getElem?_take_of_lt (by omega)] at this
    refine ⟨?_, Or.inr ⟨hscan, hall⟩⟩
    obtain ⟨idn, h1, h2, h3b, h4, h5⟩ :=
      from_jedec_id_of_scan hscan (by omega)
    exact ⟨idn, h1,
      fun _ => by simpa [Identification.continuation_count, hscan] using h2,
      by rw [hscan]; simpa [Identification.continuation_count] using h2,
      by rwa [hscan], by rwa [hscan], by rwa [hscan]⟩
  · have hscan : scanStart buf = i := by simp [scanStart, hfind]
    have hi : i < buf.length - 2 := by
      have := findStart_lt_length hfind
      omega
    obtain ⟨hbefore, b, hb, hb7⟩ := findStart_spec hfind
    have hbefore2 : ∀ j, j < scanStart buf → buf[j]? = some 0x7F := by
      intro j hj
      rw [hscan] at hj
      have := hbefore j hj
      rwa [List.getElem?_take_of_lt (by omega)] at this
    have hb2 : buf[scanStart buf]? = some b := by
      rw [hscan]
      rw [List.getElem?_take_of_lt (by omega)] at hb
      exact hb
    obtain ⟨idn, h1, h2, h3b, h4, h5⟩ :=
      from_jedec_id_of_scan hscan (by omega)
    refine ⟨⟨idn, h1, ?_, ?_, by rwa [hscan], by rwa [hscan], by rwa [hscan]⟩,
      Or.inl ⟨by omega, hbefore2, b, hb2, hb7⟩⟩
    · intro h256
      rw [hscan] at h256 ⊢
      simpa [Identification.continuation_count, Nat.mod_eq_of_lt h256] using h2
    · rw [hscan]
      simpa [Identification.continuation_count] using h2

/-- C3 witness: the amended theorem instantiated at a buffer whose first
byte already differs from the marker and at a buffer consisting
entirely of markers (exercising the default-to-0 fallback). -/
theorem c3_witness :
    ((∃ idn, Identification.from_jedec_id [0x11, 0x22, 0x33] = some idn ∧
      (scanStart [0x11, 0x22, 0x33] < 256 →
        idn.continuation_count = scanStart [0x11, 0x22, 0x33]) ∧
      idn.continuation_count = scanStart [0x11, 0x22, 0x33] % 256 ∧
      ([0x11, 0x22, 0x33] : List Nat)[scanStart [0x11, 0x22, 0x33]]? = some idn.b0 ∧
      ([0x11, 0x22, 0x33] : List Nat)[scanStart [0x11, 0x22, 0x33] + 1]? = some idn.b1 ∧
      ([0x11, 0x22, 0x33] : List Nat)[scanStart [0x11, 0x22, 0x33] + 2]? = some idn.b2) ∧
    ((scanStart [0x11, 0x22, 0x33] < ([0x11, 0x22, 0x33] : List Nat).length - 2 ∧
        (∀ j, j < scanStart [0x11, 0x22, 0x33] →
          ([0x11, 0x22, 0x33] : List Nat)[j]? = some 0x7F) ∧
        ∃ b, ([0x11, 0x22, 0x33] : List Nat)[scanStart [0x11, 0x22, 0x33]]? = some b ∧
          b ≠ 0x7F) ∨
      (scanStart [0x11, 0x22, 0x33] = 0 ∧
        ∀ j, j < ([0x11, 0x22, 0x33] : List Nat).length - 2 →
          ([0x11, 0x22, 0x33] : List Nat)[j]? = some 0x7F))) ∧
    (∃ idn, Identification.from_jedec_id [0x7F, 0x7F, 0x7F] = some idn ∧
      (scanStart [0x7F, 0x7F, 0x7F] < 256 →
        idn.continuation_count = scanStart [0x7F, 0x7F, 0x7F]) ∧
      idn.continuation_count = scanStart [0x7F, 0x7F, 0x7F] % 256 ∧
      ([0x7F, 0x7F, 0x7F] : List Nat)[scanStart [0x7F, 0x7F, 0x7F]]? = some idn.b0 ∧
      ([0x7F, 0x7F, 0x7F] : List Nat)[scanStart [0x7F, 0x7F, 0x7F] + 1]? = some idn.b1 ∧
      ([0x7F, 0x7F, 0x7F] : List Nat)[scanStart [0x7F, 0x7F, 0x7F] + 2]? = some idn.b2) :=
  ⟨@c3_amended [0x11, 0x22, 0x33] (by decide),
   (@c3_amended [0x7F, 0x7F, 0x7F] (by decide)).1⟩

/-- C10: for every buffer of length at least 3 the chosen start index
satisfies start + 2 < length, so the three identity reads are in bounds
and the decode succeeds; the scan only ever selects a non-default index
strictly below length - 2; and for buffers shorter than 3 bytes the
identity indexing faults (modelled as `none`). -/
theorem c10_inbounds (buf : List Nat) :
    (3 ≤ buf.length → scanStart buf + 2 < buf.length ∧
      (Identification.from_jedec_id buf).isSome = true) ∧
    (scanStart buf ≠ 0 → scanStart buf < buf.length - 2) ∧
    (buf.length < 3 → Identification.from_jedec_id buf = none) := by
  have htlen : (buf.take (buf.length - 2)).length = min (buf.length - 2) buf.length := by
    simp [List.length_take]
  have hbound : scanStart buf ≠ 0 → scanStart buf < buf.length - 2 := by
    intro hne
    rcases hfind : findStart (buf.take (buf.length - 2)) with _ | i
    · simp [scanStart, hfind] at hne
    · have := findStart_lt_length hfind
      have hscan : scanStart buf = i := by simp [scanStart, hfind]
      rw [hscan]
      omega
  refine ⟨?_, hbound, ?_⟩
  · intro h3
    have hlt : scanStart buf + 2 < buf.length := by
      rcases Nat.eq_zero_or_pos (scanStart buf) with h0 | hpos
      · omega
      · have := hbound (by omega)
        omega
    refine ⟨hlt, ?_⟩
    rcases hx0 : buf[scanStart buf]? with _ | x0
    · rw [List.getElem?_eq_none_iff] at hx0; omega
    rcases hx1 : buf[scanStart buf + 1]? with _ | x1
    · rw [List.getElem?_eq_none_iff] at hx1; omega
    rcases hx2 : buf[scanStart buf + 2]? with _ | x2
    · rw [List.getElem?_eq_none_iff] at hx2; omega
    simp [Identification.from_jedec_id, hx0, hx1, hx2]
  · intro hlen
    rcases buf with _ | ⟨a, _ | ⟨b, _ | ⟨c, rest⟩⟩⟩
    · rfl
    · rfl
    · rfl
    · simp at hlen
      omega

/-- C10 witness: the bounds theorem instantiated at a 3-byte buffer, a
buffer whose scan selects index 1, and a 2-byte buffer. -/
theorem c10_witness :
    (scanStart [0x11, 0x22, 0x33] + 2 < ([0x11, 0x22, 0x33] : List Nat).length ∧
      (Identification.from_jedec_id [0x11, 0x22, 0x33]).isSome = true) ∧
    scanStart [0x7F, 0x01, 0x02, 0x03] <
      ([0x7F, 0x01, 0x02, 0x03] : List Nat).length - 2 ∧
    Identification.from_jedec_id [0x11, 0x22] = none :=
  ⟨(c10_inbounds [0x11, 0x22, 0x33]).1 (by decide),
   (c10_inbounds [0x7F, 0x01, 0x02, 0x03]).2.1 (by decide),
   (c10_inbounds [0x11, 0x22]).2.2 (by decide)⟩

/-- C7 counterexample: the claim says constructing a Status from raw
byte 0x83 yields SRWD = false, but 0x83 = 0b1000_0011 has bit 7 set, so
the constructed status contains SRWD. -/
theorem c7_counterexample :
    (Status.from_bits_truncate 0x83).contains Status.SRWD = true := by decide

/-- C7 (amended): constructing a Status from raw byte 0x83 yields
BUSY = true, WEL = true and SRWD = true (bit 7 of 0x83 is set);
from raw byte 0x80 it yields SRWD = true and BUSY = false.  The bit
layout is bit0 = BUSY, bit1 = WEL, bits 2-4 = PROT, bit7 = SRWD, and
unknown bits (5 and 6) are truncated away. -/
theorem c7_amended :
    (Status.from_bits_truncate 0x83).contains Status.BUSY = true ∧
    (Status.from_bits_truncate 0x83).contains Status.WEL = true ∧
    (Status.from_bits_truncate 0x83).contains Status.SRWD = true ∧
    (Status.from_bits_truncate 0x80).contains Status.SRWD = true ∧
    (Status.from_bits_truncate 0x80).contains Status.BUSY = false ∧
    Status.BUSY.bits = 1 ∧ Status.WEL.bits = 2 ∧
    Status.PROT.bits = 0b00011100 ∧ Status.SRWD.bits = 0b10000000 ∧
    (Status.from_bits_truncate 0xFF).bits = 0b10011111 ∧
    (Status.from_bits_truncate 0b01100000).bits = 0 := by decide

/-- C6: for every addressed command (read, sector erase, block erase,
page program) the encoded address field is exactly the 3 bytes after the
opcode, byte N being `(addr >>> (8 * N)) &&& 0xFF` transmitted most
significant first — equivalently the base-256 big-endian digits of the
low 24 bits of the address — and encoding address 0x01234567 produces
`[0x23, 0x45, 0x67]`. -/
theorem c6_address_encoding (addr : Nat) :
    (readCmdBuf addr).length = 4 ∧
    (sectorEraseCmdBuf addr).length = 4 ∧
    (blockEraseCmdBuf addr).length = 4 ∧
    (pageProgCmdBuf addr).length = 4 ∧
    (readCmdBuf addr).drop 1 =
      [(addr >>> 16) &&& 0xFF, (addr >>> 8) &&& 0xFF, addr &&& 0xFF] ∧
    (sectorEraseCmdBuf addr).drop 1 =
      [(addr >>> 16) &&& 0xFF, (addr >>> 8) &&& 0xFF, addr &&& 0xFF] ∧
    (blockEraseCmdBuf addr).drop 1 =
      [(addr >>> 16) &&& 0xFF, (addr >>> 8) &&& 0xFF, addr &&& 0xFF] ∧
    (pageProgCmdBuf addr).drop 1 =
      [(addr >>> 16) &&& 0xFF, (addr >>> 8) &&& 0xFF, addr &&& 0xFF] ∧
    (readCmdBuf addr).drop 1 =
      [(addr % 0x1000000) / 0x10000, (addr % 0x1000000) / 0x100 % 0x100,
        (addr % 0x1000000) % 0x100] ∧
    (readCmdBuf 0x01234567).drop 1 = [0x23, 0x45, 0x67] ∧
    (sectorEraseCmdBuf 0x01234567).drop 1 = [0x23, 0x45, 0x67] ∧
    (blockEraseCmdBuf 0x01234567).drop 1 = [0x23, 0x45, 0x67] ∧
    (pageProgCmdBuf 0x01234567).drop 1 = [0x23, 0x45, 0x67] := by
  have hand : ∀ x : Nat, x &&& 0xFF = x % 256 := fun x => by
    have h := Nat.and_pow_two_sub_one_eq_mod x 8
    norm_num at h
    exact h
  refine ⟨rfl, rfl, rfl, rfl, ?_, ?_, ?_, ?_, ?_,
    by decide, by decide, by decide, by decide⟩
  · simp [readCmdBuf, hand]
  · simp [sectorEraseCmdBuf, hand]
  · simp [blockEraseCmdBuf, hand]
  · simp [pageProgCmdBuf, hand]
  · simp only [readCmdBuf, List.drop, Nat.shiftRight_eq_div_pow, List.cons.injEq,
      and_true]
    norm_num
    omega

/-- C5: `poll_wait_done` never propagates a transport error: for every
transport behaviour it returns pending or ready; a failed status read
yields pending; and it returns ready exactly when the status read
succeeds with the BUSY bit clear. -/
theorem c5_poll_never_errors {σ E : Type} (D : SpiDevice σ E) (f : Flash σ) :
    ((poll_wait_done D f).1 = Poll.Pending ∨
      (poll_wait_done D f).1 = Poll.Ready ()) ∧
    (∀ e, (read_status D f).1 = .error e →
      (poll_wait_done D f).1 = Poll.Pending) ∧
    ((poll_wait_done D f).1 = Poll.Ready () ↔
      ∃ st, (read_status D f).1 = .ok st ∧
        st.contains Status.BUSY = false) := by
  rcases hrs : read_status D f with ⟨r, f1, t⟩
  rcases r with e | st
  · have hp : (poll_wait_done D f).1 = Poll.Pending := by
      simp [poll_wait_done, hrs, Status.contains, Status.BUSY]
    refine ⟨Or.inl hp, fun _ _ => hp, ?_⟩
    simp [hp, hrs]
  · by_cases hb : st.contains Status.BUSY
    · have hp : (poll_wait_done D f).1 = Poll.Pending := by
        simp [poll_wait_done, hrs, hb]
      refine ⟨Or.inl hp, fun _ _ => hp, ?_⟩
      simp [hp, hrs, hb]
    · have hp : (poll_wait_done D f).1 = Poll.Ready () := by
        simp [poll_wait_done, hrs, hb]
      refine ⟨Or.inr hp, ?_, ?_⟩
      · intro e he
        simp [hrs] at he
      · simp only [hp, true_iff]
        exact ⟨st, by simp [hrs], by simpa using hb⟩

/-- C5 witness: applying the theorem to a transport that fails every
status read yields pending, and to one that reports a clear status
register yields ready. -/
theorem c5_witness :
    (poll_wait_done errDev ⟨()⟩).1 = Poll.Pending ∧
    (poll_wait_done okDev ⟨()⟩).1 = Poll.Ready () :=
  ⟨(c5_poll_never_errors errDev ⟨()⟩).2.1 (Error.Spi ()) rfl,
   (c5_poll_never_errors okDev ⟨()⟩).2.2.mpr
     ⟨Status.from_bits_truncate 0, rfl, rfl⟩⟩

/-- C4: when the write-enable succeeds, `write_bytes` issues exactly one
transaction consisting of the page-program header followed by a write of
the first `min(256, data.len())` bytes of the caller's data; the payload
length is exactly that minimum, and in particular a 300-byte payload is
truncated to 256 bytes. -/
theorem c4_write_truncates {σ E : Type} (D : SpiDevice σ E) (fuel : Nat)
    (f : Flash σ) (addr : Nat) (data : List Nat) (s1 : σ)
    (h : D.writeBytes f.spi [0x06] = Except.ok s1) :
    (∃ rest, (write_bytes D fuel f addr data).2.2 =
      SpiCall.write [0x06] ::
        SpiCall.transaction [SpiOp.write (pageProgCmdBuf addr),
          SpiOp.write (data.take (min 256 data.length))] :: rest) ∧
    (data.take (min 256 data.length)).length = min 256 data.length ∧
    (data.length = 300 → (data.take (min 256 data.length)).length = 256) := by
  refine ⟨?_, ?_, ?_⟩
  · rcases htr : D.transaction s1 [SpiOp.write (pageProgCmdBuf addr),
        SpiOp.write (data.take (min 256 data.length))] with e | s2
    · exact ⟨[], by simp [write_bytes, write_enable, command_write, h, htr]⟩
    · rcases hwd : wait_done D fuel ⟨s2⟩ with ⟨r3, f3, t3⟩
      exact ⟨t3, by simp [write_bytes, write_enable, command_write, h, htr, hwd]⟩
  · rw [List.length_take]
    omega
  · intro h300
    rw [List.length_take, h300]
    omega

/-- C4 witness: the theorem applied to an always-succeeding transport
with a 300-byte payload. -/
theorem c4_witness :
    (∃ rest, (write_bytes okDev 1 ⟨()⟩ 0x123456 (List.replicate 300 0x5A)).2.2 =
      SpiCall.write [0x06] ::
        SpiCall.transaction [SpiOp.write (pageProgCmdBuf 0x123456),
          SpiOp.write ((List.replicate 300 0x5A).take
            (min 256 (List.replicate 300 0x5A).length))] :: rest) ∧
    ((List.replicate 300 0x5A).take
      (min 256 (List.replicate 300 0x5A).length)).length =
        min 256 (List.replicate 300 0x5A).length ∧
    ((List.replicate 300 0x5A).length = 300 →
      ((List.replicate 300 0x5A).take
        (min 256 (List.replicate 300 0x5A).length)).length = 256) :=
  c4_write_truncates okDev 1 ⟨()⟩ 0x123456 (List.replicate 300 0x5A) () rfl

/-- C8: a transport failure on the write-enable command makes each of
`erase_sector`, `erase_block`, `erase_all` and `write_bytes` return that
failure unchanged, wrapped as the single transport error kind, with the
erase or program opcode never sent (the trace holds only the attempted
write-enable); and a failure on the erase command itself is likewise
propagated immediately, before any busy-wait status read. -/
theorem c8_first_failure_aborts {σ E : Type} (D : SpiDevice σ E) (fuel : Nat)
    (f : Flash σ) (addr baddr : Nat) (data : List Nat) :
    (∀ e, D.writeBytes f.spi [0x06] = .error e →
      erase_sector D fuel f addr =
        (some (.error (.Spi e)), f, [.write [0x06]]) ∧
      erase_block D fuel f baddr =
        (some (.error (.Spi e)), f, [.write [0x06]]) ∧
      erase_all D fuel f =
        (some (.error (.Spi e)), f, [.write [0x06]]) ∧
      write_bytes D fuel f addr data =
        (some (.error (.Spi e)), f, [.write [0x06]])) ∧
    (∀ s1 e, D.writeBytes f.spi [0x06] = .ok s1 →
      D.writeBytes s1 (sectorEraseCmdBuf addr) = .error e →
      erase_sector D fuel f addr =
        (some (.error (.Spi e)), ⟨s1⟩,
          [.write [0x06], .write (sectorEraseCmdBuf addr)])) := by
  constructor
  · intro e he
    refine ⟨?_, ?_, ?_, ?_⟩
    · simp [erase_sector, write_enable, command_write, he]
    · simp [erase_block, write_enable, command_write, he]
    · simp [erase_all, write_enable, command_write, he]
    · simp [write_bytes, write_enable, command_write, he]
  · intro s1 e h1 h2
    simp [erase_sector, write_enable, command_write, h1, h2]

/-- C8 witness: the theorem applied to a transport that fails every
write (the write-enable fails, nothing further is sent) and to one
whose first write succeeds and second fails (the erase command failure
is returned before any status poll). -/
theorem c8_witness :
    (erase_sector errDev 0 ⟨()⟩ 4096 =
        (some (.error (.Spi ())), ⟨()⟩, [.write [0x06]]) ∧
      erase_block errDev 0 ⟨()⟩ 65536 =
        (some (.error (.Spi ())), ⟨()⟩, [.write [0x06]]) ∧
      erase_all errDev 0 ⟨()⟩ =
        (some (.error (.Spi ())), ⟨()⟩, [.write [0x06]]) ∧
      write_bytes errDev 0 ⟨()⟩ 4096 [1, 2, 3] =
        (some (.error (.Spi ())), ⟨()⟩, [.write [0x06]])) ∧
    erase_sector flakyDev 0 ⟨0⟩ 4096 =
      (some (.error (.Spi ())), ⟨1⟩,
        [.write [0x06], .write (sectorEraseCmdBuf 4096)]) :=
  ⟨(c8_first_failure_aborts errDev 0 ⟨()⟩ 4096 65536 [1, 2, 3]).1 () rfl,
   (c8_first_failure_aborts flakyDev 0 ⟨0⟩ 4096 0 []).2 1 () rfl rfl⟩

end Series25
